import Mathlib

/-!
Verification of the gcli-api gateway against its specification.

A shallow embedding of the core of the `gcli-api` multi-protocol gateway:
the JSON value model used by its tool-schema sanitiser and SSE parser,
the canonical Gemini response data model, the Claude streaming state
machine, the OpenAI choice expansion, the stream processor, and the
credential rotator.  Each definition is translated from the Python source
(`src/utils/utils.py`, `src/core/streaming.py`,
`src/adapters/claude_transformers.py`, `src/adapters/openai_transformers.py`,
`src/adapters/formatters.py`, `src/credential_manager.py`).
-/

namespace GcliApi

/-! ## Python JSON values

`PyVal` models the values produced by `json.loads` and manipulated by the
sanitiser (floats are not needed by any claim and are omitted). -/

inductive PyVal where
  | null : PyVal
  | bool (b : Bool) : PyVal
  | int (n : Int) : PyVal
  | str (s : String) : PyVal
  | arr (xs : List PyVal) : PyVal
  | obj (fields : List (String × PyVal)) : PyVal

/-- Python truthiness of a JSON value: `None`, `False`, `0`, `""`, `[]`
and `{}` are falsy, everything else is truthy. -/
def pyTruthy : PyVal → Bool
  | .null => false
  | .bool b => b
  | .int n => n != 0
  | .str s => s != ""
  | .arr xs => !xs.isEmpty
  | .obj fields => !fields.isEmpty

/-- Python's `d.get(k)` on a dict (`None` when absent); lookup of the first
matching key.  On a non-dict the sanitiser is never applied to one, and we
return `none`. -/
def pyGet (v : PyVal) (k : String) : Option PyVal :=
  match v with
  | .obj fields => (fields.find? (fun kv => kv.1 = k)).map (·.2)
  | _ => none

/-- Escapes a string for JSON output (quote and backslash; control and
non-ASCII escaping of `json.dumps` is elided, no claim depends on it). -/
def jsonEscape (s : String) : String :=
  s.foldl
    (fun acc c =>
      acc ++ (if c = '"' then "\\\"" else if c = '\\' then "\\\\" else String.singleton c))
    ""

mutual
/-- Serialisation as `json.dumps` with the default separators. -/
def pyDumps : PyVal → String
  | .null => "null"
  | .bool b => if b then "true" else "false"
  | .int n => toString n
  | .str s => "\"" ++ jsonEscape s ++ "\""
  | .arr xs => "[" ++ pyDumpsArr xs ++ "]"
  | .obj fields => "\x7b" ++ pyDumpsFields fields ++ "\x7d"

def pyDumpsArr : List PyVal → String
  | [] => ""
  | [x] => pyDumps x
  | x :: y :: rest => pyDumps x ++ ", " ++ pyDumpsArr (y :: rest)

def pyDumpsFields : List (String × PyVal) → String
  | [] => ""
  | [(k, v)] => "\"" ++ jsonEscape k ++ "\": " ++ pyDumps v
  | (k, v) :: kv :: rest =>
      "\"" ++ jsonEscape k ++ "\": " ++ pyDumps v ++ ", " ++ pyDumpsFields (kv :: rest)
end

mutual
/-- Source `_recursive_remove_keys` of `src/utils/utils.py`: delete every key in
`ks` from every dict in the subtree, recursing into kept values and list
items. -/
def removeKeysVal (ks : List String) : PyVal → PyVal
  | .obj fields => .obj (removeKeysFields ks fields)
  | .arr xs => .arr (removeKeysArr ks xs)
  | v => v

def removeKeysFields (ks : List String) : List (String × PyVal) → List (String × PyVal)
  | [] => []
  | (k, v) :: rest =>
      if k ∈ ks then removeKeysFields ks rest
      else (k, removeKeysVal ks v) :: removeKeysFields ks rest

def removeKeysArr (ks : List String) : List PyVal → List PyVal
  | [] => []
  | v :: rest => removeKeysVal ks v :: removeKeysArr ks rest
end

mutual
/-- Does a dict key named `k` occur anywhere in the subtree? -/
def pyHasKeyDeep (k : String) : PyVal → Bool
  | .obj fields => fieldsHasKeyDeep k fields
  | .arr xs => arrHasKeyDeep k xs
  | _ => false

def fieldsHasKeyDeep (k : String) : List (String × PyVal) → Bool
  | [] => false
  | (k2, v) :: rest => k2 = k || pyHasKeyDeep k v || fieldsHasKeyDeep k rest

def arrHasKeyDeep (k : String) : List PyVal → Bool
  | [] => false
  | v :: rest => pyHasKeyDeep k v || arrHasKeyDeep k rest
end

/-! ## Tool-schema sanitisation (`sanitize_gemini_tools`, `src/utils/utils.py`)

The Python function deep-copies the tools list and, only when the first
entry's `functionDeclarations` value is truthy, strips the configured
unsupported keys from the `parameters` subtree of each declaration of that
first entry.  Entries past the first are returned as they came. -/

/-- One function declaration: remove the unsupported keys from its
`parameters` subtree (`_recursive_remove_keys(func_dec["parameters"])`). -/
def sanitizeFuncDec (ks : List String) (fd : PyVal) : PyVal :=
  match fd with
  | .obj fields =>
      .obj (fields.map fun kv =>
        if kv.1 = "parameters" then (kv.1, removeKeysVal ks kv.2) else kv)
  | other => other

/-- The `for func_dec in tools_copy[0]["functionDeclarations"]` loop, applied
to the value under `functionDeclarations` (a list in every well-formed
request). -/
def sanitizeFuncDecs (ks : List String) (v : PyVal) : PyVal :=
  match v with
  | .arr fds => .arr (fds.map (sanitizeFuncDec ks))
  | other => other

/-- Sanitise the first tools entry in place. -/
def sanitizeFirstEntry (ks : List String) (t : PyVal) : PyVal :=
  match t with
  | .obj fields =>
      .obj (fields.map fun kv =>
        if kv.1 = "functionDeclarations" then (kv.1, sanitizeFuncDecs ks kv.2) else kv)
  | other => other

/-- Source `sanitize_gemini_tools` (`src/utils/utils.py`): `None` (and the falsy
empty list) maps to `None`; otherwise only `tools[0]` is touched, and only
when its `functionDeclarations` value is truthy. -/
def sanitize_gemini_tools (ks : List String) (tools : Option (List PyVal)) :
    Option (List PyVal) :=
  match tools with
  | none => none
  | some [] => none
  | some (t0 :: rest) =>
      if pyTruthy ((pyGet t0 "functionDeclarations").getD .null) then
        some (sanitizeFirstEntry ks t0 :: rest)
      else
        some (t0 :: rest)

/-- The settings default `UNSUPPORTED_TOOL_SCHEMA_KEYS`. -/
def defaultUnsupportedKeys : List String := ["$schema", "exclusiveMinimum"]

/-- Does a key named `k` occur anywhere under the `parameters` subtree of
one function declaration? -/
def fdKeyUnderParams (k : String) (fd : PyVal) : Bool :=
  match pyGet fd "parameters" with
  | some params => pyHasKeyDeep k params
  | none => false

/-- The property claimed by the spec, for a single tools entry: a key
named `k` occurs somewhere under one of its
`functionDeclarations[*].parameters` subtrees. -/
def entryKeyUnderParams (k : String) (t : PyVal) : Bool :=
  match pyGet t "functionDeclarations" with
  | some (.arr fds) => fds.any (fdKeyUnderParams k)
  | _ => false

/-- The spec property over a whole tools list (`tools[*]`). -/
def toolsKeyUnderParams (k : String) (tools : Option (List PyVal)) : Bool :=
  match tools with
  | none => false
  | some ts => ts.any (entryKeyUnderParams k)

/-! ## Canonical Gemini response model (`src/models/gemini.py`)

Pydantic models, one structure per class; optional fields become `Option`.
`GeminiCandidate.content` is a required field of the pydantic model, and a
model instance is always truthy in Python, so the streamer's
`chunk.candidates[0].content` truthiness test reduces to candidate
presence. -/

structure GeminiFunctionCall where
  name : String
  args : List (String × PyVal)

structure GeminiPart where
  text : Option String := none
  inlineData : Option (String × String) := none
  functionCall : Option GeminiFunctionCall := none
  functionResponse : Option (String × PyVal) := none
  fileData : Option (String × String) := none
  executableCode : Option (String × String) := none
  codeExecutionResult : Option (String × String) := none
  thought : Option Bool := none
  thoughtSignature : Option String := none

structure GeminiContent where
  role : String
  parts : List GeminiPart := []

structure GeminiCandidate where
  content : GeminiContent
  finishReason : Option String := none
  index : Int := 0

structure GeminiUsageMetadata where
  promptTokenCount : Option Int := none
  candidatesTokenCount : Option Int := none
  totalTokenCount : Option Int := none

structure GeminiResponse where
  candidates : List GeminiCandidate
  usageMetadata : Option GeminiUsageMetadata := none
  modelVersion : Option String := none
  responseId : Option String := none
  createTime : Option String := none

/-- Python truthiness of an optional string field (`None` and `""` are
falsy). -/
def strTruthy : Option String → Bool
  | none => false
  | some s => s != ""

/-! ## Claude streaming state machine
(`ClaudeStreamer`, `src/adapters/claude_transformers.py`) -/

/-- Source `_map_gemini_to_claude_finish_reason`. -/
def mapClaudeFinishReason (geminiReason : Option String) : String :=
  if !strTruthy geminiReason then "end_turn"
  else
    match geminiReason.getD "" with
    | "STOP" => "end_turn"
    | "MAX_TOKENS" => "max_tokens"
    | "TOOL_USE" => "tool_use"
    | _ => "stop"

inductive BlockType where
  | text
  | toolUse
deriving DecidableEq

structure ClaudeContentBlock where
  type : String
  text : Option String := none
  id : Option String := none
  name : Option String := none
  input : Option (List (String × PyVal)) := none

inductive ClaudeDelta where
  | textDelta (text : String)
  | inputJsonDelta (partialJson : String)

/-- One SSE event of the Claude surface (each is serialised by the source
as `event: <type>\ndata: <json>\n\n`). -/
inductive ClaudeEvent where
  | message_start (id : String) (model : String) (inputTokens : Int)
  | content_block_start (index : Nat) (block : ClaudeContentBlock)
  | content_block_delta (index : Nat) (delta : ClaudeDelta)
  | content_block_stop (index : Nat)
  | message_delta (stopReason : String) (outputTokens : Int)
  | message_stop

/-- The mutable state of `ClaudeStreamer`. -/
structure ClaudeStreamer where
  response_id : String
  model : String
  is_finished : Bool := false
  content_block_index : Nat := 0
  last_block_type : Option BlockType := none
  message_started : Bool := false
  meta_data_captured : Bool := false

def ClaudeStreamer.init (responseId model : String) : ClaudeStreamer :=
  { response_id := responseId, model := model }

/-- Source `chunk.usageMetadata.promptTokenCount or 0 if chunk and chunk.usageMetadata else 0`. -/
def inputTokensOf : Option GeminiResponse → Int
  | some c =>
      match c.usageMetadata with
      | some u => u.promptTokenCount.getD 0
      | none => 0
  | none => 0

/-- Source `_ensure_message_started`. -/
def ensureMessageStarted (s : ClaudeStreamer) (chunk : Option GeminiResponse) :
    ClaudeStreamer × List ClaudeEvent :=
  if s.message_started then (s, [])
  else
    ({ s with message_started := true },
     [.message_start s.response_id s.model (inputTokensOf chunk)])

/-- The per-part block data: `current_block_type`, `delta_model`,
`start_block_model` of the loop body (a part whose `text` is falsy and
whose `functionCall` is absent yields nothing and is skipped). -/
def partEventData (p : GeminiPart) :
    Option (BlockType × ClaudeDelta × ClaudeContentBlock) :=
  if strTruthy p.text then
    some (.text, .textDelta (p.text.getD ""), { type := "text", text := some "" })
  else
    match p.functionCall with
    | some fc =>
        some (.toolUse,
          .inputJsonDelta (pyDumps (.obj fc.args)),
          { type := "tool_use", id := some fc.name, name := some fc.name,
            input := some [] })
    | none => none

/-- The body of `for part in chunk.candidates[0].content.parts`. -/
def processPart (s : ClaudeStreamer) (p : GeminiPart) :
    ClaudeStreamer × List ClaudeEvent :=
  match partEventData p with
  | none => (s, [])
  | some (bt, delta, startBlock) =>
      let (s1, evs1) : ClaudeStreamer × List ClaudeEvent :=
        match s.last_block_type with
        | some t =>
            if t ≠ bt then
              ({ s with content_block_index := s.content_block_index + 1,
                        last_block_type := none },
               [.content_block_stop s.content_block_index])
            else (s, [])
        | none => (s, [])
      let (s2, evs2) : ClaudeStreamer × List ClaudeEvent :=
        match s1.last_block_type with
        | none =>
            ({ s1 with last_block_type := some bt },
             [.content_block_start s1.content_block_index startBlock])
        | some _ => (s1, [])
      (s2, evs1 ++ evs2 ++ [.content_block_delta s2.content_block_index delta])

def processParts (s : ClaudeStreamer) : List GeminiPart → ClaudeStreamer × List ClaudeEvent
  | [] => (s, [])
  | p :: rest =>
      let (s1, evs1) := processPart s p
      let (s2, evs2) := processParts s1 rest
      (s2, evs1 ++ evs2)

/-- Source `has_content`: `chunk and chunk.candidates and chunk.candidates[0].content`
(the `content` attribute is a required pydantic field, hence always
truthy). -/
def chunkHasContent : Option GeminiResponse → Bool
  | some c => !c.candidates.isEmpty
  | none => false

/-- Source `is_final_chunk`: `chunk is None or (chunk and chunk.candidates and
chunk.candidates[0].finishReason)`. -/
def isFinalChunk : Option GeminiResponse → Bool
  | none => true
  | some c =>
      match c.candidates with
      | [] => false
      | cand :: _ => strTruthy cand.finishReason

/-- The `--- Process Content ---` section of `format_chunk`. -/
def contentStep (s : ClaudeStreamer) (chunk : Option GeminiResponse) :
    ClaudeStreamer × List ClaudeEvent :=
  if chunkHasContent chunk then
    let (sa, e1) := ensureMessageStarted s chunk
    let parts :=
      match chunk with
      | some c =>
          match c.candidates with
          | cand :: _ => cand.content.parts
          | [] => []
      | none => []
    let (sb, e2) := processParts sa parts
    (sb, e1 ++ e2)
  else (s, [])

/-- The `--- Handle End of Stream ---` section of `format_chunk`. -/
def finalStep (s1 : ClaudeStreamer) (chunk : Option GeminiResponse) :
    ClaudeStreamer × List ClaudeEvent :=
  let s2 := { s1 with is_finished := true }
  let (s3, e3) := ensureMessageStarted s2 chunk
  let outputTokens : Int :=
    match chunk with
    | some c =>
        match c.usageMetadata with
        | some u => u.candidatesTokenCount.getD 0
        | none => 0
    | none => 0
  let stopReason0 : String :=
    match chunk with
    | some c =>
        match c.candidates with
        | [] => "end_turn"
        | cand :: _ => mapClaudeFinishReason cand.finishReason
    | none => "end_turn"
  let (stopReason, e4) : String × List ClaudeEvent :=
    match s3.last_block_type with
    | some bt =>
        (if bt = .toolUse then "tool_use" else stopReason0,
         [ClaudeEvent.content_block_stop s3.content_block_index])
    | none => (stopReason0, [])
  (s3, e3 ++ e4 ++ [.message_delta stopReason outputTokens, .message_stop])

/-- Source `ClaudeStreamer.format_chunk`: once finished, yield nothing; otherwise
run the content section, then, on a final chunk, the end-of-stream
section. -/
def formatChunk (s : ClaudeStreamer) (chunk : Option GeminiResponse) :
    ClaudeStreamer × List ClaudeEvent :=
  if s.is_finished then (s, [])
  else
    let (s1, evs1) := contentStep s chunk
    if isFinalChunk chunk then
      let (s3, evs2) := finalStep s1 chunk
      (s3, evs1 ++ evs2)
    else (s1, evs1)

/-- Source `ClaudeFormatter.format_chunk` metadata capture
(`src/adapters/formatters.py`): before processing, capture `responseId`
(prefixed `msg_`) and `modelVersion` from the chunk until a `responseId`
is seen. -/
def captureClaudeMeta (s : ClaudeStreamer) (chunk : Option GeminiResponse) :
    ClaudeStreamer :=
  match chunk with
  | some c =>
      if !s.meta_data_captured then
        let s1 :=
          if strTruthy c.responseId then
            { s with response_id := "msg_" ++ c.responseId.getD "" }
          else s
        let s2 :=
          if strTruthy c.modelVersion then { s1 with model := c.modelVersion.getD "" }
          else s1
        if strTruthy c.responseId then { s2 with meta_data_captured := true } else s2
      else s
  | none => s

/-- Source `ClaudeFormatter.format_chunk`: metadata capture followed by the
streamer. -/
def claudeFormatChunk (s : ClaudeStreamer) (chunk : Option GeminiResponse) :
    ClaudeStreamer × List ClaudeEvent :=
  formatChunk (captureClaudeMeta s chunk) chunk

/-- Feed a whole sequence of items through the Claude formatter. -/
def claudeFormatStream (s : ClaudeStreamer) :
    List (Option GeminiResponse) → ClaudeStreamer × List ClaudeEvent
  | [] => (s, [])
  | c :: rest =>
      let (s1, evs1) := claudeFormatChunk s c
      let (s2, evs2) := claudeFormatStream s1 rest
      (s2, evs1 ++ evs2)

/-- The events of a whole Claude stream: every parsed upstream chunk in
order, followed by the stream processor's end-of-stream signal
(`format_chunk(None)`). -/
def claudeRun (responseId model : String) (chunks : List GeminiResponse) :
    List ClaudeEvent :=
  (claudeFormatStream (ClaudeStreamer.init responseId model)
    (chunks.map some ++ [none])).2

/-! ## The Claude event grammar

An acceptor for
`message_start (content_block_start (content_block_delta)+ content_block_stop)* message_delta message_stop`
that additionally requires consecutive block indices starting at 0 (which
entails "all index values strictly increasing from 0") and by construction
accepts `content_block_delta` only inside an open block. -/

inductive GState where
  | expectMessageStart
  | betweenBlocks (nextIdx : Nat)
  | inBlock (idx : Nat) (hasDelta : Bool)
  | afterMessageDelta
  | done
deriving DecidableEq

def gstep : GState → ClaudeEvent → Option GState
  | .expectMessageStart, .message_start _ _ _ => some (.betweenBlocks 0)
  | .betweenBlocks i, .content_block_start j _ =>
      if j = i then some (.inBlock i false) else none
  | .betweenBlocks _, .message_delta _ _ => some .afterMessageDelta
  | .inBlock i _, .content_block_delta j _ =>
      if j = i then some (.inBlock i true) else none
  | .inBlock i hasDelta, .content_block_stop j =>
      if j = i then (if hasDelta then some (.betweenBlocks (i + 1)) else none)
      else none
  | .afterMessageDelta, .message_stop => some .done
  | _, _ => none

def gsteps : GState → List ClaudeEvent → Option GState
  | σ, [] => some σ
  | σ, e :: rest =>
      match gstep σ e with
      | some σ2 => gsteps σ2 rest
      | none => none

/-- A Claude event sequence matches the spec's grammar. -/
def acceptsClaudeGrammar (evs : List ClaudeEvent) : Bool :=
  match gsteps .expectMessageStart evs with
  | some .done => true
  | _ => false

/-- Abstraction of a streamer state to an acceptor state. -/
def absState (s : ClaudeStreamer) : GState :=
  if s.is_finished then .done
  else if s.message_started then
    match s.last_block_type with
    | none => .betweenBlocks s.content_block_index
    | some _ => .inBlock s.content_block_index true
  else .expectMessageStart

/-- Well-formedness of a streamer state: before `message_start` the block
index is 0 and no block is open (true of the initial state and preserved by
every step). -/
def StreamerInv (s : ClaudeStreamer) : Prop :=
  s.message_started = false → s.content_block_index = 0 ∧ s.last_block_type = none

def isMessageDeltaEvent : ClaudeEvent → Bool
  | .message_delta _ _ => true
  | _ => false

def isMessageStopEvent : ClaudeEvent → Bool
  | .message_stop => true
  | _ => false

/-- How many `message_delta` events an accepted run still emits from a
given acceptor state. -/
def remainingDeltas : GState → Nat
  | .afterMessageDelta => 0
  | .done => 0
  | _ => 1

/-- How many `message_stop` events an accepted run still emits from a
given acceptor state. -/
def remainingStops : GState → Nat
  | .done => 0
  | _ => 1

/-! ## OpenAI choice expansion
(`_gemini_candidate_to_openai_choices`, `src/adapters/openai_transformers.py`) -/

/-- Source `_map_finish_reason`: `None` for a missing reason while streaming,
`"stop"` (with a warning) when non-streaming. -/
def mapOpenAIFinishReason (geminiReason : Option String) (isStreaming : Bool) :
    Option String :=
  if !strTruthy geminiReason then
    if isStreaming then none else some "stop"
  else
    match geminiReason.getD "" with
    | "STOP" => some "stop"
    | "MAX_TOKENS" => some "length"
    | "SAFETY" => some "content_filter"
    | "RECITATION" => some "content_filter"
    | "TOOL_USE" => some "tool_calls"
    | _ => some "stop"

structure ToolCall where
  id : String
  name : String
  arguments : String
  index : Option Nat := none

/-- One OpenAI choice: `OpenAIChatCompletionChoice` (message fields) for
non-streaming, `OpenAIChatCompletionStreamChoice` (delta fields) for
streaming. -/
inductive OpenAIChoice where
  | choice (index : Int) (content : Option String) (toolCalls : Option (List ToolCall))
      (finishReason : Option String)
  | streamChoice (index : Int) (deltaContent : Option String) (deltaRole : Option String)
      (deltaToolCalls : Option (List ToolCall)) (finishReason : Option String)

def OpenAIChoice.finishReasonOf : OpenAIChoice → Option String
  | .choice _ _ _ fr => fr
  | .streamChoice _ _ _ _ fr => fr

/-- The body of `for i, part in enumerate(parts)`: a single Part yields a
text choice when `part.text` is truthy, then a tool-call choice when
`part.functionCall` is present; `fr` is the value of the loop's
`finish_reason` variable (`None` except on the last part). -/
def partChoices (isStreaming : Bool) (candIndex : Int) (fr : Option String)
    (p : GeminiPart) : List OpenAIChoice :=
  (if strTruthy p.text then
    if isStreaming then
      [.streamChoice candIndex p.text
        (if p.functionCall.isNone then some "assistant" else none)
        none
        (if p.functionCall.isSome then none else fr)]
    else
      [.choice candIndex p.text none fr]
  else []) ++
  (match p.functionCall with
   | some fc =>
       let tc : ToolCall :=
         { id := fc.name, name := fc.name, arguments := pyDumps (.obj fc.args),
           index := if isStreaming then some 0 else none }
       if isStreaming then
         [.streamChoice candIndex none (some "assistant") (some [tc]) fr]
       else
         [.choice candIndex none (some [tc]) fr]
   | none => [])

/-- The enumeration with `is_last_part = (i == total_parts - 1)`: every
part except the final one gets `finish_reason = None`; the final one gets
the mapped reason. -/
def choicesLoop (isStreaming : Bool) (candIndex : Int) (frMapped : Option String) :
    List GeminiPart → List OpenAIChoice
  | [] => []
  | [p] => partChoices isStreaming candIndex frMapped p
  | p :: q :: rest =>
      partChoices isStreaming candIndex none p ++
      choicesLoop isStreaming candIndex frMapped (q :: rest)

/-- Source `_gemini_candidate_to_openai_choices`. -/
def candidateChoices (c : GeminiCandidate) (isStreaming : Bool) : List OpenAIChoice :=
  choicesLoop isStreaming c.index
    (mapOpenAIFinishReason c.finishReason isStreaming) c.content.parts

/-- C3 as claimed, as a decidable predicate over a candidate: among the
produced non-streaming choices exactly the last one carries the mapped
finish reason, and every earlier one carries `None`. -/
def c3ClaimHolds (c : GeminiCandidate) : Bool :=
  let cs := candidateChoices c false
  (cs.dropLast.all fun ch => ch.finishReasonOf == none) &&
  (match cs.getLast? with
   | some ch => ch.finishReasonOf == mapOpenAIFinishReason c.finishReason false
   | none => true)

/-- A candidate whose last (and only) Part carries both text and a
functionCall: the source emits two choices from it and attaches the mapped
finish reason to both. -/
def c3Candidate : GeminiCandidate :=
  { content :=
      { role := "model",
        parts := [{ text := some "hi",
                    functionCall := some { name := "get_weather", args := [] } }] },
    finishReason := some "STOP",
    index := 0 }

/-! ## C4: sanitisation strips keys only from the first tools entry -/

/-- A first tools entry whose declaration parameters are already clean. -/
def c4Entry0 : PyVal :=
  .obj [("functionDeclarations",
    .arr [.obj [("name", .str "a"),
                ("parameters", .obj [("type", .str "object")])]])]

/-- A second tools entry whose declaration parameters still hold
`$schema`. -/
def c4Entry1 : PyVal :=
  .obj [("functionDeclarations",
    .arr [.obj [("name", .str "b"),
                ("parameters",
                 .obj [("$schema", .str "http://json-schema.org/draft-07/schema#"),
                       ("type", .str "object")])]])]

/-- A two-entry tools list as the native Gemini surface may submit. -/
def c4BadTools : List PyVal := [c4Entry0, c4Entry1]

/-! ## The SSE parser (`_parse_google_sse`, `src/core/streaming.py`)

Line framing is pure string manipulation; the payload handling works on
the value returned by `json.loads`.  Python's `in` operator raises
`TypeError` on numbers, booleans and `None`, and subscripting a string or
list with a string key also raises `TypeError`; only
`json.JSONDecodeError` and `ValidationError` are caught by the
surrounding handlers. -/

inductive PyError where
  | typeError
deriving DecidableEq

def charsStarts : List Char → List Char → Bool
  | _, [] => true
  | [], _ :: _ => false
  | a :: as, b :: bs => a = b && charsStarts as bs

def charsContains : List Char → List Char → Bool
  | [], ks => ks.isEmpty
  | a :: as, ks => charsStarts (a :: as) ks || charsContains as ks

/-- Python's `k in s` for strings: substring containment. -/
def strContains (hay k : String) : Bool :=
  charsContains hay.toList k.toList

/-- Python's `k in v`: key lookup on a dict, substring test on a string,
element equality on a list, `TypeError` on `None`, booleans and
numbers. -/
def pyContains (v : PyVal) (k : String) : Except PyError Bool :=
  match v with
  | .obj fields => .ok (fields.any fun kv => kv.1 = k)
  | .str s => .ok (strContains s k)
  | .arr xs =>
      .ok (xs.any fun x =>
        match x with
        | .str s => s = k
        | _ => false)
  | _ => .error .typeError

/-- Python's `v[k]` with a string key: dict lookup; `TypeError` on any
other type (it is only evaluated after `k in v` succeeded, so the dict
lookup cannot miss). -/
def pySubscript (v : PyVal) (k : String) : Except PyError PyVal :=
  match v with
  | .obj fields =>
      match (fields.find? (fun kv => kv.1 = k)).map (·.2) with
      | some x => .ok x
      | none => .error .typeError
  | _ => .error .typeError

/-! ### Pydantic validation of the canonical response models
(`src/models/gemini.py`; `extra = "allow"`, so unknown keys are ignored,
and only the fields carried by the embedded structures are validated). -/

/-- An `Optional[str]` field. -/
def vOptStr (v : PyVal) (k : String) : Except Unit (Option String) :=
  match pyGet v k with
  | none => .ok none
  | some .null => .ok none
  | some (.str s) => .ok (some s)
  | some _ => .error ()

/-- An `Optional[int]` field (pydantic rejects booleans for `int`). -/
def vOptInt (v : PyVal) (k : String) : Except Unit (Option Int) :=
  match pyGet v k with
  | none => .ok none
  | some .null => .ok none
  | some (.int n) => .ok (some n)
  | some _ => .error ()

/-- An `Optional[bool]` field. -/
def vOptBool (v : PyVal) (k : String) : Except Unit (Option Bool) :=
  match pyGet v k with
  | none => .ok none
  | some .null => .ok none
  | some (.bool b) => .ok (some b)
  | some _ => .error ()

/-- A required `str` field. -/
def vStrReq (v : PyVal) (k : String) : Except Unit String :=
  match pyGet v k with
  | some (.str s) => .ok s
  | _ => .error ()

/-- A required `Dict[str, Any]` field. -/
def vDictReq (v : PyVal) (k : String) : Except Unit (List (String × PyVal)) :=
  match pyGet v k with
  | some (.obj fields) => .ok fields
  | _ => .error ()

/-- An optional submodel field: absent or `null` become `none`, anything
else must validate. -/
def vOptSub {α : Type} (f : PyVal → Except Unit α) (v : PyVal) (k : String) :
    Except Unit (Option α) :=
  match pyGet v k with
  | none => .ok none
  | some .null => .ok none
  | some x => (f x).map some

/-- A submodel with two required string fields (`GeminiInlineData`,
`GeminiFileData`, `GeminiExecutableCode`, `GeminiCodeExecutionResult`). -/
def validateStrPair (k1 k2 : String) (x : PyVal) : Except Unit (String × String) := do
  match x with
  | .obj _ =>
      let a ← vStrReq x k1
      let b ← vStrReq x k2
      .ok (a, b)
  | _ => .error ()

/-- Validation of `GeminiFunctionCall`: required `name : str` and `args : dict`. -/
def validateFunctionCall (x : PyVal) : Except Unit GeminiFunctionCall := do
  match x with
  | .obj _ =>
      let name ← vStrReq x "name"
      let args ← vDictReq x "args"
      .ok { name := name, args := args }
  | _ => .error ()

/-- Validation of `GeminiFunctionResponse`: required `name : str` and `response : dict`. -/
def validateFunctionResponse (x : PyVal) : Except Unit (String × PyVal) := do
  match x with
  | .obj _ =>
      let name ← vStrReq x "name"
      let resp ← vDictReq x "response"
      .ok (name, .obj resp)
  | _ => .error ()

/-- Validation of `GeminiPart`: every field optional. -/
def validatePart (x : PyVal) : Except Unit GeminiPart := do
  match x with
  | .obj _ =>
      let text ← vOptStr x "text"
      let inlineData ← vOptSub (validateStrPair "mimeType" "data") x "inlineData"
      let functionCall ← vOptSub validateFunctionCall x "functionCall"
      let functionResponse ← vOptSub validateFunctionResponse x "functionResponse"
      let fileData ← vOptSub (validateStrPair "mimeType" "fileUri") x "fileData"
      let executableCode ← vOptSub (validateStrPair "language" "code") x "executableCode"
      let codeExecutionResult ←
        vOptSub (validateStrPair "outcome" "output") x "codeExecutionResult"
      let thought ← vOptBool x "thought"
      let thoughtSignature ← vOptStr x "thoughtSignature"
      .ok { text := text, inlineData := inlineData, functionCall := functionCall,
            functionResponse := functionResponse, fileData := fileData,
            executableCode := executableCode,
            codeExecutionResult := codeExecutionResult, thought := thought,
            thoughtSignature := thoughtSignature }
  | _ => .error ()

/-- Validation of `GeminiContent`: required `role : str`, `parts : List[GeminiPart] = []`. -/
def validateContent (x : PyVal) : Except Unit GeminiContent := do
  match x with
  | .obj _ =>
      let role ← vStrReq x "role"
      let parts ←
        match pyGet x "parts" with
        | none => .ok ([] : List GeminiPart)
        | some (.arr xs) => xs.mapM validatePart
        | some _ => .error ()
      .ok { role := role, parts := parts }
  | _ => .error ()

/-- Validation of `GeminiCandidate`: required `content`, optional `finishReason`,
`index : int = 0`. -/
def validateCandidate (x : PyVal) : Except Unit GeminiCandidate := do
  match x with
  | .obj _ =>
      let content ←
        match pyGet x "content" with
        | some c => validateContent c
        | none => .error ()
      let finishReason ← vOptStr x "finishReason"
      let index ←
        match pyGet x "index" with
        | none => .ok (0 : Int)
        | some (.int n) => .ok n
        | some _ => .error ()
      .ok { content := content, finishReason := finishReason, index := index }
  | _ => .error ()

/-- Validation of `GeminiUsageMetadata`: all fields optional ints. -/
def validateUsageMetadata (x : PyVal) : Except Unit GeminiUsageMetadata := do
  match x with
  | .obj _ =>
      let p ← vOptInt x "promptTokenCount"
      let c ← vOptInt x "candidatesTokenCount"
      let t ← vOptInt x "totalTokenCount"
      .ok { promptTokenCount := p, candidatesTokenCount := c, totalTokenCount := t }
  | _ => .error ()

/-- The `Optional[GeminiUsageMetadata]` value of a constructor argument:
`None` is accepted, anything else must validate. -/
def validateOptUsage (x : PyVal) : Except Unit (Option GeminiUsageMetadata) :=
  match x with
  | .null => .ok none
  | _ => (validateUsageMetadata x).map some

/-- Source `GeminiResponse.model_validate`: required `candidates` list, the rest
optional. -/
def validateResponse (x : PyVal) : Except Unit GeminiResponse := do
  match x with
  | .obj _ =>
      let candidates ←
        match pyGet x "candidates" with
        | some (.arr xs) => xs.mapM validateCandidate
        | _ => .error ()
      let usageMetadata ← vOptSub validateUsageMetadata x "usageMetadata"
      let modelVersion ← vOptStr x "modelVersion"
      let responseId ← vOptStr x "responseId"
      let createTime ← vOptStr x "createTime"
      .ok { candidates := candidates, usageMetadata := usageMetadata,
            modelVersion := modelVersion, responseId := responseId,
            createTime := createTime }
  | _ => .error ()

/-- The framing part of `_parse_google_sse`: empty lines, lines without
the `data:` marker and empty payloads are passed over; otherwise the
trimmed payload text is handed to `json.loads`. -/
def isPySpace (c : Char) : Bool :=
  c = ' ' || c = '\t' || c = '\n' || c = '\r' || c = '\x0b' || c = '\x0c'

def dropLeadingWS : List Char → List Char
  | [] => []
  | c :: cs => if isPySpace c then dropLeadingWS cs else c :: cs

/-- Python's `str.strip()` with no argument: remove leading and trailing
whitespace. -/
def pyStrip (s : String) : String :=
  .mk ((dropLeadingWS ((dropLeadingWS s.toList).reverse)).reverse)

def extractDataLine (line : String) : Option String :=
  if line = "" then none
  else
    let l := pyStrip line
    if !charsStarts l.toList "data:".toList then none
    else
      let ds := pyStrip (.mk (l.toList.drop 5))
      if ds = "" then none else some ds

/-- The fate of one `data:` payload. -/
inductive LineOutcome where
  | yielded (r : GeminiResponse)
  | skipped
  | raised (e : PyError)

/-- The payload handling of `_parse_google_sse` on the value returned by
`json.loads`: strategy 1 validates the whole object; on `ValidationError`,
strategy 2 checks `"response" in obj` (which raises `TypeError` on a
scalar payload), validates the subtree (a failure here propagates to the
outer handler and skips the line) and then copies a sibling
`usageMetadata` onto the chunk when the inner one is absent (the source
assigns the raw dict without validation; the typed embedding decodes it);
strategy 3 yields a candidates-free chunk when only `usageMetadata` is
present (its constructor validation failure is caught and skips the
line). -/
def processPayload (v : PyVal) : LineOutcome :=
  match validateResponse v with
  | .ok r => .yielded r
  | .error _ =>
      match pyContains v "response" with
      | .error e => .raised e
      | .ok true =>
          match pySubscript v "response" with
          | .error e => .raised e
          | .ok inner =>
              match validateResponse inner with
              | .error _ => .skipped
              | .ok r =>
                  let hasOuterUsage :=
                    match pyContains v "usageMetadata" with
                    | .ok b => b
                    | .error _ => false
                  if hasOuterUsage && r.usageMetadata.isNone then
                    match pyGet v "usageMetadata" with
                    | some raw =>
                        .yielded { r with usageMetadata := (validateOptUsage raw).toOption.join }
                    | none => .yielded r
                  else .yielded r
      | .ok false =>
          match pyContains v "usageMetadata" with
          | .error e => .raised e
          | .ok true =>
              match pySubscript v "usageMetadata" with
              | .error e => .raised e
              | .ok raw =>
                  match validateOptUsage raw with
                  | .ok u => .yielded { candidates := [], usageMetadata := u }
                  | .error _ => .skipped
          | .ok false => .skipped

/-! ## Stream processor and formatter dispatch
(`StreamProcessor.process`, `src/core/streaming.py`;
`GeminiFormatter` / `OpenAIFormatter` / `ClaudeFormatter`,
`src/adapters/formatters.py`)

Each string yielded to the client is modelled as one `SSEItem`
(serialisation to `data: <json>\n\n` text is elided). -/

/-- Model `OpenAIChatCompletionStreamResponse` (the `created` wall-clock
timestamp is environment input and is elided). -/
structure OpenAIStreamChunk where
  id : String
  object : String := "chat.completion.chunk"
  model : String
  choices : List OpenAIChoice

/-- Source `gemini_stream_chunk_to_openai`. -/
def gemini_stream_chunk_to_openai (chunk : GeminiResponse) (model responseId : String) :
    OpenAIStreamChunk :=
  { id := responseId, model := model,
    choices := chunk.candidates.flatMap fun c => candidateChoices c true }

/-- One frame yielded to the client. -/
inductive SSEItem where
  | geminiData (r : GeminiResponse)
  | openaiData (r : OpenAIStreamChunk)
  | claudeEvent (e : ClaudeEvent)
  | errorData (message : String)
  | done

/-- One item produced by `_stream_generator`: a parsed chunk, or a
`StreamError` for a non-2xx upstream status. -/
inductive StreamItem where
  | chunk (c : GeminiResponse)
  | streamError (status : Nat) (message : String)

def isChunkItem : StreamItem → Bool
  | .chunk _ => true
  | .streamError _ _ => false

/-- The state of the formatter object handed to the processor. -/
inductive FormatterState where
  | gemini
  | openai (response_id : String) (model : String) (meta_captured : Bool)
  | claude (s : ClaudeStreamer)

/-- Dispatch of `format_chunk` over the three streaming formatter classes.  The OpenAI
formatter captures `responseId` (prefixed `chatcmpl-`) and `modelVersion`
until a `responseId` is seen, then emits one chunk frame per parsed
chunk; the native Gemini formatter emits the chunk as-is; the Claude
formatter delegates to the stateful streamer. -/
def formatterFormatChunk :
    FormatterState → Option GeminiResponse → FormatterState × List SSEItem
  | .gemini, some c => (.gemini, [.geminiData c])
  | .gemini, none => (.gemini, [])
  | .openai rid model captured, chunk =>
      let (rid2, model2, captured2) : String × String × Bool :=
        match chunk with
        | some c =>
            if !captured then
              let rid1 := if strTruthy c.responseId then
                  "chatcmpl-" ++ c.responseId.getD "" else rid
              let model1 := if strTruthy c.modelVersion then
                  c.modelVersion.getD "" else model
              let captured1 := if strTruthy c.responseId then true else captured
              (rid1, model1, captured1)
            else (rid, model, captured)
        | none => (rid, model, captured)
      match chunk with
      | some c =>
          (.openai rid2 model2 captured2,
           [.openaiData (gemini_stream_chunk_to_openai c model2 rid2)])
      | none => (.openai rid2 model2 captured2, [])
  | .claude s, chunk =>
      let (s2, evs) := claudeFormatChunk s chunk
      (.claude s2, evs.map .claudeEvent)

/-- The `isinstance(self.formatter, OpenAIFormatter)` test guarding the
trailing `data: [DONE]` frame. -/
def isOpenAIFormatter : FormatterState → Bool
  | .openai _ _ _ => true
  | _ => false

/-- The `async for` loop of `StreamProcessor.process`: chunks are
formatted; the first `StreamError` is logged, materialised as one inline
error frame, and breaks the loop.  Returns (`had_error`, formatter,
yielded frames). -/
def processLoop : FormatterState → List StreamItem → Bool × FormatterState × List SSEItem
  | f, [] => (false, f, [])
  | f, .streamError _ msg :: _ => (true, f, [.errorData msg])
  | f, .chunk c :: rest =>
      let (f1, evs1) := formatterFormatChunk f (some c)
      let (hadError, f2, evs2) := processLoop f1 rest
      (hadError, f2, evs1 ++ evs2)

/-- Source `StreamProcessor.process`: run the loop; when no error occurred,
signal end-of-stream to the formatter; finally — error or not — emit
`data: [DONE]` whenever the formatter is the OpenAI one. -/
def processStream (f : FormatterState) (items : List StreamItem) : List SSEItem :=
  let (hadError, f1, evs) := processLoop f items
  let evs2 := if hadError then evs else evs ++ (formatterFormatChunk f1 none).2
  evs2 ++ (if isOpenAIFormatter f then [.done] else [])

/-- The formatted output of an error-free prefix of chunks. -/
def formatChunksOnly : FormatterState → List StreamItem → FormatterState × List SSEItem
  | f, [] => (f, [])
  | f, .chunk c :: rest =>
      let (f1, evs1) := formatterFormatChunk f (some c)
      let (f2, evs2) := formatChunksOnly f1 rest
      (f2, evs1 ++ evs2)
  | f, .streamError _ _ :: _ => (f, [])

/-! ## Credential rotation
(`CredentialManager.get_next_credential`, `src/credential_manager.py`)

`expired` is the snapshot of google-auth's `Credentials.expired` property
(the only token-state the rotator reads); a successful
`credential.refresh` installs a fresh token and an expiry about an hour
ahead, making `expired` false.  The network outcome of each refresh is an
oracle indexed by pool position: a `RefreshError` is the permanent
invalid-grant failure, any other exception the transient one. -/

structure GoogleCredential where
  token : Option String := none
  expired : Bool := false
  refresh_token : Option String := none

instance : Inhabited GoogleCredential := ⟨{}⟩

inductive RefreshOutcome where
  | success (newToken : String)
  | invalidGrant
  | transientFailure

def RefreshOutcome.isSuccess : RefreshOutcome → Bool
  | .success _ => true
  | _ => false

/-- Source `ManagedCredential` (`src/credential_manager.py`). -/
structure ManagedCredential where
  credential : GoogleCredential
  project_id : Option String := none
  user_email : Option String := none
  is_onboarded : Bool := false
  is_valid : Bool := true

instance : Inhabited ManagedCredential := ⟨{ credential := {} }⟩

/-- The pool and its round-robin cursor (the `asyncio.Lock` serialises the
whole probe loop, so one call is one atomic step). -/
structure CredentialManager where
  credentials : List ManagedCredential
  next_credential_index : Nat := 0

/-- The effect of a successful `credential.refresh(GoogleAuthRequest())`. -/
def applyRefresh (c : GoogleCredential) (tok : String) : GoogleCredential :=
  { c with token := some tok, expired := false }

/-- The `for _ in range(len(self._credentials))` probe loop: read the
entry at the cursor, advance the cursor modulo the pool size, skip
invalid entries, return an unexpired entry as-is, refresh an expired one
(return on success, mark invalid and continue on `RefreshError`, continue
on any other exception, continue when no refresh token exists). -/
def getNextLoop (oracle : Nat → RefreshOutcome) :
    Nat → List ManagedCredential → Nat →
    Option (Nat × ManagedCredential) × List ManagedCredential × Nat
  | 0, creds, idx => (none, creds, idx)
  | fuel + 1, creds, idx =>
      let mc := creds.getD idx default
      let idx2 := (idx + 1) % creds.length
      if !mc.is_valid then getNextLoop oracle fuel creds idx2
      else if !mc.credential.expired then (some (idx, mc), creds, idx2)
      else if strTruthy mc.credential.refresh_token then
        match oracle idx with
        | .success tok =>
            let mc2 := { mc with credential := applyRefresh mc.credential tok }
            (some (idx, mc2), creds.set idx mc2, idx2)
        | .invalidGrant =>
            getNextLoop oracle fuel (creds.set idx { mc with is_valid := false }) idx2
        | .transientFailure => getNextLoop oracle fuel creds idx2
      else getNextLoop oracle fuel creds idx2

/-- Source `get_next_credential`: empty pool short-circuits to `None`; otherwise
probe up to pool-size entries. -/
def get_next_credential (m : CredentialManager) (oracle : Nat → RefreshOutcome) :
    Option (Nat × ManagedCredential) × CredentialManager :=
  if m.credentials.isEmpty then (none, m)
  else
    let (res, creds2, idx2) :=
      getNextLoop oracle m.credentials.length m.credentials m.next_credential_index
    (res, { credentials := creds2, next_credential_index := idx2 })

/-- A sequence of `next()` calls, each with the refresh outcomes of its
moment. -/
def runCalls (m : CredentialManager) :
    List (Nat → RefreshOutcome) →
    List (Option (Nat × ManagedCredential)) × CredentialManager
  | [] => ([], m)
  | o :: os =>
      let (r, m1) := get_next_credential m o
      let (rs, m2) := runCalls m1 os
      (r :: rs, m2)

/-- A credential the probe loop can always hand out: valid, and either
unexpired or refreshable. -/
def usableCred (mc : ManagedCredential) : Bool :=
  mc.is_valid && (!mc.credential.expired || strTruthy mc.credential.refresh_token)

/-! ### Concrete pools for the rotator witnesses -/

/-- A fresh, valid, unexpired credential. -/
def wCredReady : ManagedCredential :=
  { credential := { token := some "ya29.w", expired := false, refresh_token := some "1//r" } }

/-- A valid but expired credential with a refresh token. -/
def wCredExpired : ManagedCredential :=
  { credential := { token := some "ya29.old", expired := true, refresh_token := some "1//r2" } }

/-- A credential already marked invalid. -/
def wCredInvalid : ManagedCredential :=
  { credential := { token := none, expired := true, refresh_token := some "1//r3" },
    is_valid := false }

/-- One-credential pools and a permanently failing refresh oracle, for
the C6 witness. -/
def c6PoolInvalid : CredentialManager :=
  { credentials := [wCredInvalid], next_credential_index := 0 }

def c6PoolExpired : CredentialManager :=
  { credentials := [wCredExpired], next_credential_index := 0 }

def invalidGrantOracle : Nat → RefreshOutcome := fun _ => .invalidGrant

/-! ## Theorems -/

mutual
theorem removeKeysVal_no_key (ks : List String) (k : String) (hk : k ∈ ks) :
    ∀ v : PyVal, pyHasKeyDeep k (removeKeysVal ks v) = false
  | .null => rfl
  | .bool _ => rfl
  | .int _ => rfl
  | .str _ => rfl
  | .arr xs => by
      simp only [removeKeysVal, pyHasKeyDeep]
      exact removeKeysArr_no_key ks k hk xs
  | .obj fields => by
      simp only [removeKeysVal, pyHasKeyDeep]
      exact removeKeysFields_no_key ks k hk fields

theorem removeKeysFields_no_key (ks : List String) (k : String) (hk : k ∈ ks) :
    ∀ fields : List (String × PyVal),
      fieldsHasKeyDeep k (removeKeysFields ks fields) = false
  | [] => rfl
  | (k2, v) :: rest => by
      simp only [removeKeysFields]
      by_cases h : k2 ∈ ks
      · simp only [h, if_true]
        exact removeKeysFields_no_key ks k hk rest
      · have hne : k2 ≠ k := fun he => h (he ▸ hk)
        simp [h, fieldsHasKeyDeep, hne,
          removeKeysVal_no_key ks k hk v, removeKeysFields_no_key ks k hk rest]

theorem removeKeysArr_no_key (ks : List String) (k : String) (hk : k ∈ ks) :
    ∀ xs : List PyVal, arrHasKeyDeep k (removeKeysArr ks xs) = false
  | [] => rfl
  | v :: rest => by
      simp only [removeKeysArr, arrHasKeyDeep,
        removeKeysVal_no_key ks k hk v, removeKeysArr_no_key ks k hk rest,
        Bool.or_false]
end

theorem gsteps_append (σ : GState) (a b : List ClaudeEvent) :
    gsteps σ (a ++ b) = (gsteps σ a).bind (fun σ2 => gsteps σ2 b) := by
  induction a generalizing σ with
  | nil => rfl
  | cons e rest ih =>
      simp only [List.cons_append, gsteps]
      cases gstep σ e with
      | none => rfl
      | some σ2 => exact ih σ2

theorem gsteps_processPart (s : ClaudeStreamer) (p : GeminiPart)
    (hf : s.is_finished = false) (hm : s.message_started = true) :
    gsteps (absState s) (processPart s p).2 = some (absState (processPart s p).1) ∧
    (processPart s p).1.is_finished = false ∧
    (processPart s p).1.message_started = true := by
  unfold processPart
  cases hpe : partEventData p with
  | none => simp [gsteps, hf, hm]
  | some data =>
      obtain ⟨bt, delta, sb⟩ := data
      cases hl : s.last_block_type with
      | none =>
          simp [absState, gsteps, gstep, hf, hm, hl]
      | some t =>
          by_cases hbt : t = bt
          · subst hbt
            simp [absState, gsteps, gstep, hf, hm, hl]
          · simp [absState, gsteps, gstep, hf, hm, hl, hbt]

theorem gsteps_processParts (s : ClaudeStreamer) (parts : List GeminiPart)
    (hf : s.is_finished = false) (hm : s.message_started = true) :
    gsteps (absState s) (processParts s parts).2 = some (absState (processParts s parts).1) ∧
    (processParts s parts).1.is_finished = false ∧
    (processParts s parts).1.message_started = true := by
  induction parts generalizing s with
  | nil => simp [processParts, gsteps, hf, hm]
  | cons p rest ih =>
      obtain ⟨h1, hf1, hm1⟩ := gsteps_processPart s p hf hm
      obtain ⟨h2, hf2, hm2⟩ := ih (processPart s p).1 hf1 hm1
      simp only [processParts]
      refine ⟨?_, hf2, hm2⟩
      rw [gsteps_append, h1]
      exact h2

theorem gsteps_contentStep (s : ClaudeStreamer) (chunk : Option GeminiResponse)
    (hf : s.is_finished = false) (hInv : StreamerInv s) :
    gsteps (absState s) (contentStep s chunk).2 = some (absState (contentStep s chunk).1) ∧
    (contentStep s chunk).1.is_finished = false ∧
    StreamerInv (contentStep s chunk).1 := by
  unfold contentStep
  cases hc : chunkHasContent chunk with
  | false => simpa [gsteps, hf] using hInv
  | true =>
      simp only [if_true]
      cases hm : s.message_started with
      | true =>
          have hens : ensureMessageStarted s chunk = (s, []) := by
            simp [ensureMessageStarted, hm]
          rw [hens]
          obtain ⟨h1, hf1, hm1⟩ := gsteps_processParts s _ hf hm
          exact ⟨by simpa using h1, hf1, fun h => by rw [hm1] at h; cases h⟩
      | false =>
          obtain ⟨hidx, hlast⟩ := hInv hm
          have hens : ensureMessageStarted s chunk =
              ({ s with message_started := true },
               [.message_start s.response_id s.model (inputTokensOf chunk)]) := by
            simp [ensureMessageStarted, hm]
          rw [hens]
          set sa : ClaudeStreamer := { s with message_started := true } with hsa
          have hfa : sa.is_finished = false := hf
          have hma : sa.message_started = true := rfl
          obtain ⟨h1, hf1, hm1⟩ := gsteps_processParts sa _ hfa hma
          refine ⟨?_, hf1, fun h => by rw [hm1] at h; cases h⟩
          have habs : absState s = .expectMessageStart := by
            simp [absState, hf, hm]
          have habsa : absState sa = .betweenBlocks 0 := by
            simp [absState, hsa, hf, hidx, hlast]
          rw [habs]
          simp only [gsteps, gstep]
          rw [← habsa]
          simpa using h1

theorem gsteps_finalStep (s1 : ClaudeStreamer) (chunk : Option GeminiResponse)
    (hf : s1.is_finished = false) (hInv : StreamerInv s1) :
    gsteps (absState s1) (finalStep s1 chunk).2 = some .done ∧
    (finalStep s1 chunk).1.is_finished = true := by
  unfold finalStep
  cases hm : s1.message_started with
  | false =>
      obtain ⟨hidx, hlast⟩ := hInv hm
      simp [ensureMessageStarted, absState, gsteps, gstep, hf, hm, hidx, hlast]
  | true =>
      cases hl : s1.last_block_type with
      | none =>
          simp [ensureMessageStarted, absState, gsteps, gstep, hf, hm, hl]
      | some bt =>
          simp [ensureMessageStarted, absState, gsteps, gstep, hf, hm, hl]

theorem finalStep_message_started (s1 : ClaudeStreamer) (chunk : Option GeminiResponse) :
    (finalStep s1 chunk).1.message_started = true := by
  unfold finalStep ensureMessageStarted
  cases hm : s1.message_started <;> simp [hm]

theorem gsteps_formatChunk (s : ClaudeStreamer) (chunk : Option GeminiResponse)
    (hInv : StreamerInv s) :
    gsteps (absState s) (formatChunk s chunk).2 = some (absState (formatChunk s chunk).1) ∧
    StreamerInv (formatChunk s chunk).1 := by
  unfold formatChunk
  cases hfin : s.is_finished with
  | true => simp [gsteps, hfin]; exact hInv
  | false =>
      simp only [Bool.false_eq_true, if_false]
      obtain ⟨h1, hf1, hInv1⟩ := gsteps_contentStep s chunk hfin hInv
      cases hfc : isFinalChunk chunk with
      | false => simpa [hfc] using ⟨h1, hInv1⟩
      | true =>
          simp only [hfc, if_true]
          obtain ⟨h2, hfin2⟩ := gsteps_finalStep (contentStep s chunk).1 chunk hf1 hInv1
          constructor
          · rw [gsteps_append, h1]
            have habs : absState (finalStep (contentStep s chunk).1 chunk).1 = .done := by
              simp [absState, hfin2]
            rw [habs]
            exact h2
          · intro h
            rw [finalStep_message_started] at h
            cases h

theorem captureClaudeMeta_fields (s : ClaudeStreamer) (chunk : Option GeminiResponse) :
    (captureClaudeMeta s chunk).is_finished = s.is_finished ∧
    (captureClaudeMeta s chunk).message_started = s.message_started ∧
    (captureClaudeMeta s chunk).last_block_type = s.last_block_type ∧
    (captureClaudeMeta s chunk).content_block_index = s.content_block_index := by
  unfold captureClaudeMeta
  cases chunk with
  | none => exact ⟨rfl, rfl, rfl, rfl⟩
  | some c =>
      cases hcap : s.meta_data_captured <;> simp [hcap] <;> split_ifs <;> simp

theorem absState_captureClaudeMeta (s : ClaudeStreamer) (chunk : Option GeminiResponse) :
    absState (captureClaudeMeta s chunk) = absState s := by
  obtain ⟨h1, h2, h3, h4⟩ := captureClaudeMeta_fields s chunk
  unfold absState
  rw [h1, h2, h3, h4]

theorem streamerInv_captureClaudeMeta (s : ClaudeStreamer)
    (chunk : Option GeminiResponse) (hInv : StreamerInv s) :
    StreamerInv (captureClaudeMeta s chunk) := by
  obtain ⟨h1, h2, h3, h4⟩ := captureClaudeMeta_fields s chunk
  intro h
  rw [h2] at h
  rw [h3, h4]
  exact hInv h

theorem gsteps_claudeFormatChunk (s : ClaudeStreamer) (chunk : Option GeminiResponse)
    (hInv : StreamerInv s) :
    gsteps (absState s) (claudeFormatChunk s chunk).2 =
      some (absState (claudeFormatChunk s chunk).1) ∧
    StreamerInv (claudeFormatChunk s chunk).1 := by
  unfold claudeFormatChunk
  rw [← absState_captureClaudeMeta s chunk]
  exact gsteps_formatChunk _ chunk (streamerInv_captureClaudeMeta s chunk hInv)

theorem gsteps_claudeFormatStream (items : List (Option GeminiResponse))
    (s : ClaudeStreamer) (hInv : StreamerInv s) :
    gsteps (absState s) (claudeFormatStream s items).2 =
      some (absState (claudeFormatStream s items).1) ∧
    StreamerInv (claudeFormatStream s items).1 := by
  induction items generalizing s with
  | nil => simpa [claudeFormatStream, gsteps] using hInv
  | cons c rest ih =>
      obtain ⟨h1, hInv1⟩ := gsteps_claudeFormatChunk s c hInv
      obtain ⟨h2, hInv2⟩ := ih (claudeFormatChunk s c).1 hInv1
      simp only [claudeFormatStream]
      refine ⟨?_, hInv2⟩
      rw [gsteps_append, h1]
      exact h2

theorem claudeFormatChunk_none_finished (s : ClaudeStreamer) :
    (claudeFormatChunk s none).1.is_finished = true := by
  unfold claudeFormatChunk captureClaudeMeta
  cases hfin : s.is_finished with
  | true => simp [formatChunk, hfin]
  | false =>
      unfold formatChunk
      simp only [hfin, Bool.false_eq_true, if_false]
      have hfc : isFinalChunk (none : Option GeminiResponse) = true := rfl
      simp only [hfc, if_true]
      unfold finalStep ensureMessageStarted
      split <;> simp_all <;> split <;> simp_all

theorem claudeFormatStream_ends_finished (chunks : List GeminiResponse)
    (s : ClaudeStreamer) :
    (claudeFormatStream s (chunks.map some ++ [none])).1.is_finished = true := by
  induction chunks generalizing s with
  | nil =>
      simp only [List.map_nil, List.nil_append, claudeFormatStream]
      exact claudeFormatChunk_none_finished s
  | cons c rest ih =>
      simp only [List.map_cons, List.cons_append, claudeFormatStream]
      exact ih (claudeFormatChunk s (some c)).1

theorem gstep_counts (σ σ2 : GState) (e : ClaudeEvent) (h : gstep σ e = some σ2) :
    remainingDeltas σ = (if isMessageDeltaEvent e then 1 else 0) + remainingDeltas σ2 ∧
    remainingStops σ = (if isMessageStopEvent e then 1 else 0) + remainingStops σ2 := by
  cases σ <;> cases e <;>
    simp [gstep] at h <;>
    (try obtain ⟨rfl, h⟩ := h) <;>
    (try obtain ⟨rfl, h⟩ := h) <;>
    (try subst h) <;>
    simp [remainingDeltas, remainingStops, isMessageDeltaEvent, isMessageStopEvent]

theorem gsteps_done_counts :
    ∀ (evs : List ClaudeEvent) (σ : GState), gsteps σ evs = some .done →
      evs.countP isMessageDeltaEvent = remainingDeltas σ ∧
      evs.countP isMessageStopEvent = remainingStops σ := by
  intro evs
  induction evs with
  | nil =>
      intro σ h
      simp only [gsteps, Option.some_inj] at h
      subst h
      simp [remainingDeltas, remainingStops]
  | cons e rest ih =>
      intro σ h
      simp only [gsteps] at h
      cases hst : gstep σ e with
      | none => rw [hst] at h; cases h
      | some σ2 =>
          rw [hst] at h
          obtain ⟨hd, hs⟩ := gstep_counts σ σ2 e hst
          obtain ⟨hd2, hs2⟩ := ih σ2 h
          constructor
          · rw [List.countP_cons, hd, hd2]
            by_cases he : isMessageDeltaEvent e = true <;> simp [he] <;> omega
          · rw [List.countP_cons, hs, hs2]
            by_cases he : isMessageStopEvent e = true <;> simp [he] <;> omega

theorem finalStep_is_finished (s1 : ClaudeStreamer) (chunk : Option GeminiResponse) :
    (finalStep s1 chunk).1.is_finished = true := by
  unfold finalStep ensureMessageStarted
  cases hm : s1.message_started <;> simp [hm]

/-- The accepted shape of a complete Claude run: helper shared by the
grammar and count theorems. -/
theorem claudeRun_accepted (responseId model : String) (chunks : List GeminiResponse) :
    gsteps .expectMessageStart (claudeRun responseId model chunks) = some .done := by
  unfold claudeRun
  have hInv : StreamerInv (ClaudeStreamer.init responseId model) :=
    fun _ => ⟨rfl, rfl⟩
  obtain ⟨h1, -⟩ :=
    gsteps_claudeFormatStream (chunks.map some ++ [none])
      (ClaudeStreamer.init responseId model) hInv
  have hfin := claudeFormatStream_ends_finished chunks (ClaudeStreamer.init responseId model)
  have habsF :
      absState (claudeFormatStream (ClaudeStreamer.init responseId model)
        (chunks.map some ++ [none])).1 = .done := by
    simp [absState, hfin]
  have habs0 : absState (ClaudeStreamer.init responseId model) = .expectMessageStart := rfl
  rw [habs0, habsF] at h1
  exact h1

/-- C1: for every Claude streaming request — any sequence of parsed
upstream chunks followed by the end-of-stream signal — the emitted event
sequence matches
`message_start (content_block_start (content_block_delta)+ content_block_stop)* message_delta message_stop`,
with block indices consecutive from 0 (hence strictly increasing from 0)
and every `content_block_delta` inside an open block. -/
theorem claude_stream_matches_event_grammar
    (responseId model : String) (chunks : List GeminiResponse) :
    acceptsClaudeGrammar (claudeRun responseId model chunks) = true := by
  unfold acceptsClaudeGrammar
  rw [claudeRun_accepted responseId model chunks]

/-- C9: a finished Claude streamer yields no events and does not change
state, and every complete Claude stream carries at most one
`message_delta` and at most one `message_stop` event; moreover processing
any final chunk (end-of-stream signal or candidate with a truthy
`finishReason`) puts the streamer into its finished state. -/
theorem claude_streamer_finished_is_sink :
    (∀ (s : ClaudeStreamer) (chunk : Option GeminiResponse),
        s.is_finished = true → formatChunk s chunk = (s, [])) ∧
    (∀ (s : ClaudeStreamer) (chunk : Option GeminiResponse),
        isFinalChunk chunk = true → s.is_finished = false →
        (formatChunk s chunk).1.is_finished = true) ∧
    (∀ (responseId model : String) (chunks : List GeminiResponse),
        (claudeRun responseId model chunks).countP isMessageDeltaEvent ≤ 1 ∧
        (claudeRun responseId model chunks).countP isMessageStopEvent ≤ 1) := by
  refine ⟨?_, ?_, ?_⟩
  · intro s chunk h
    simp [formatChunk, h]
  · intro s chunk hfc h
    simp only [formatChunk, h, Bool.false_eq_true, if_false, hfc, if_true]
    exact finalStep_is_finished _ chunk
  · intro responseId model chunks
    obtain ⟨hd, hs⟩ :=
      gsteps_done_counts (claudeRun responseId model chunks) .expectMessageStart
        (claudeRun_accepted responseId model chunks)
    rw [hd, hs]
    exact ⟨Nat.le_refl 1, Nat.le_refl 1⟩

/-- Witness for C9: the hypotheses are satisfiable — a concrete finished
streamer state is a sink, and a final chunk finishes a fresh streamer. -/
theorem claude_streamer_finished_is_sink_witness :
    formatChunk { response_id := "msg_w", model := "m", is_finished := true } none =
      ({ response_id := "msg_w", model := "m", is_finished := true }, []) ∧
    (formatChunk (ClaudeStreamer.init "msg_w" "m") none).1.is_finished = true :=
  ⟨claude_streamer_finished_is_sink.1 _ none rfl,
   claude_streamer_finished_is_sink.2.1 (ClaudeStreamer.init "msg_w" "m") none rfl rfl⟩

/-- C3 counterexample: on `c3Candidate` the non-streaming expansion yields
two choices and both carry `finish_reason = "stop"`, so the earlier choice
does not have a null finish reason and the claim is false as stated. -/
theorem c3_counterexample :
    (candidateChoices c3Candidate false).map OpenAIChoice.finishReasonOf =
      [some "stop", some "stop"] ∧
    c3ClaimHolds c3Candidate = false := by
  constructor <;> rfl

theorem partChoices_finishReason (isStreaming : Bool) (candIndex : Int)
    (fr : Option String) (p : GeminiPart) (ch : OpenAIChoice)
    (hns : isStreaming = false)
    (hch : ch ∈ partChoices isStreaming candIndex fr p) :
    ch.finishReasonOf = fr := by
  subst hns
  unfold partChoices at hch
  rw [List.mem_append] at hch
  rcases hch with h | h
  · split at h
    · simp only [Bool.false_eq_true, if_false, List.mem_singleton] at h
      subst h
      rfl
    · cases h
  · revert h
    cases p.functionCall with
    | none => intro h; cases h
    | some fc =>
        intro h
        simp only [Bool.false_eq_true, if_false, List.mem_singleton] at h
        subst h
        rfl

theorem choicesLoop_decompose (isStreaming : Bool) (candIndex : Int)
    (frMapped : Option String) (front : List GeminiPart) (lastPart : GeminiPart) :
    choicesLoop isStreaming candIndex frMapped (front ++ [lastPart]) =
      front.flatMap (partChoices isStreaming candIndex none) ++
      partChoices isStreaming candIndex frMapped lastPart := by
  induction front with
  | nil => simp [choicesLoop]
  | cons p rest ih =>
      cases rest with
      | nil => simp [choicesLoop, List.flatMap_cons]
      | cons q rest2 =>
          show partChoices isStreaming candIndex none p ++
              choicesLoop isStreaming candIndex frMapped (q :: (rest2 ++ [lastPart])) = _
          simp only [List.cons_append] at ih
          rw [ih]
          simp [List.flatMap_cons, List.append_assoc]

/-- C3 amended: in the non-streaming expansion, every choice produced from
a Part other than the candidate's last Part has a null `finish_reason`,
and every choice produced from the last Part — one for its text and one
for its functionCall when both are present — carries the candidate's
mapped finish reason. -/
theorem openai_finish_reason_on_last_part (c : GeminiCandidate)
    (front : List GeminiPart) (lastPart : GeminiPart)
    (hps : c.content.parts = front ++ [lastPart]) :
    candidateChoices c false =
      front.flatMap (partChoices false c.index none) ++
      partChoices false c.index (mapOpenAIFinishReason c.finishReason false) lastPart ∧
    (∀ p ∈ front, ∀ ch ∈ partChoices false c.index none p,
       ch.finishReasonOf = none) ∧
    (∀ ch ∈ partChoices false c.index
        (mapOpenAIFinishReason c.finishReason false) lastPart,
       ch.finishReasonOf = mapOpenAIFinishReason c.finishReason false) := by
  refine ⟨?_, ?_, ?_⟩
  · unfold candidateChoices
    rw [hps]
    exact choicesLoop_decompose false c.index _ front lastPart
  · intro p _ ch hch
    exact partChoices_finishReason false c.index none p ch rfl hch
  · intro ch hch
    exact partChoices_finishReason false c.index _ lastPart ch rfl hch

/-- Witness for the amended C3 at `c3Candidate` (empty front, the mixed
Part last). -/
theorem openai_finish_reason_on_last_part_witness :
    candidateChoices c3Candidate false =
      [].flatMap (partChoices false c3Candidate.index none) ++
      partChoices false c3Candidate.index
        (mapOpenAIFinishReason c3Candidate.finishReason false)
        { text := some "hi", functionCall := some { name := "get_weather", args := [] } } :=
  (openai_finish_reason_on_last_part c3Candidate []
    { text := some "hi", functionCall := some { name := "get_weather", args := [] } }
    rfl).1

/-- C10: a Part carrying neither truthy text nor a functionCall (for
example `inlineData`, `executableCode`, `codeExecutionResult`, or text
equal to the empty string) produces no OpenAI choice — streaming or not —
and produces no Claude content-block event and no streamer state change. -/
theorem contentless_part_produces_nothing (p : GeminiPart)
    (htext : strTruthy p.text = false) (hfc : p.functionCall = none) :
    (∀ (isStreaming : Bool) (candIndex : Nat) (fr : Option String),
        partChoices isStreaming candIndex fr p = []) ∧
    (∀ s : ClaudeStreamer, processPart s p = (s, [])) := by
  constructor
  · intro isStreaming candIndex fr
    unfold partChoices
    rw [htext, hfc]
    rfl
  · intro s
    have hpe : partEventData p = none := by
      unfold partEventData
      rw [htext, hfc]
      rfl
    unfold processPart
    rw [hpe]

/-- Witness for C10: a Part holding only inline image data and an
empty-string text yields no choice and no Claude event. -/
theorem contentless_part_produces_nothing_witness :
    partChoices false 0 (some "stop")
      { text := some "", inlineData := some ("image/png", "aGk=") } = [] ∧
    processPart (ClaudeStreamer.init "msg_w2" "m")
      { text := some "", inlineData := some ("image/png", "aGk=") } =
      (ClaudeStreamer.init "msg_w2" "m", []) :=
  ⟨(contentless_part_produces_nothing
      { text := some "", inlineData := some ("image/png", "aGk=") }
      (by decide) rfl).1 false 0 (some "stop"),
   (contentless_part_produces_nothing
      { text := some "", inlineData := some ("image/png", "aGk=") }
      (by decide) rfl).2 _⟩

/-- C4 counterexample: after sanitisation with the default unsupported-key
list, the emitted request still contains a `$schema` key under
`tools[1].functionDeclarations[0].parameters`, because
`sanitize_gemini_tools` touches only `tools[0]`. -/
theorem c4_counterexample :
    toolsKeyUnderParams "$schema"
      (sanitize_gemini_tools defaultUnsupportedKeys (some c4BadTools)) = true := by
  decide

theorem pyGet_obj_mapIf (tgt : String) (g : PyVal → PyVal)
    (fields : List (String × PyVal)) (key : String) :
    pyGet (.obj (fields.map fun kv => if kv.1 = tgt then (kv.1, g kv.2) else kv)) key =
      if key = tgt then (pyGet (.obj fields) key).map g
      else pyGet (.obj fields) key := by
  induction fields with
  | nil => simp [pyGet]
  | cons kv rest ih =>
      by_cases h1 : kv.1 = key
      · by_cases h2 : key = tgt
        · subst h2
          simp [pyGet, List.find?, h1]
        · have h3 : ¬kv.1 = tgt := fun he => h2 (h1.symm.trans he)
          simp [pyGet, List.find?, h1, h2, h3]
      · have hfk : (if kv.1 = tgt then (kv.1, g kv.2) else kv).1 = kv.1 := by
          split <;> rfl
        simp only [pyGet, List.map_cons]
        rw [List.find?_cons_of_neg _ (by simp [hfk, h1]),
            List.find?_cons_of_neg _ (by simp [h1])]
        simp only [pyGet] at ih
        exact ih

theorem fdKeyUnderParams_sanitizeFuncDec (ks : List String) (k : String)
    (hk : k ∈ ks) (fd : PyVal) :
    fdKeyUnderParams k (sanitizeFuncDec ks fd) = false := by
  cases fd with
  | obj fields =>
      unfold sanitizeFuncDec fdKeyUnderParams
      rw [pyGet_obj_mapIf "parameters" (removeKeysVal ks) fields "parameters"]
      simp only [if_pos rfl]
      cases pyGet (.obj fields) "parameters" with
      | none => rfl
      | some params => exact removeKeysVal_no_key ks k hk params
  | null => rfl
  | bool b => rfl
  | int n => rfl
  | str s => rfl
  | arr xs => rfl

theorem entryKeyUnderParams_sanitizeFirstEntry (ks : List String) (k : String)
    (hk : k ∈ ks) (t0 : PyVal) :
    entryKeyUnderParams k (sanitizeFirstEntry ks t0) = false := by
  cases t0 with
  | obj fields =>
      unfold sanitizeFirstEntry entryKeyUnderParams
      rw [pyGet_obj_mapIf "functionDeclarations" (sanitizeFuncDecs ks) fields
        "functionDeclarations"]
      simp only [if_pos rfl]
      cases pyGet (.obj fields) "functionDeclarations" with
      | none => rfl
      | some v =>
          cases v with
          | arr fds =>
              show (fds.map (sanitizeFuncDec ks)).any (fdKeyUnderParams k) = false
              rw [List.any_map, List.any_eq_false]
              intro fd _
              simp [Function.comp_apply, fdKeyUnderParams_sanitizeFuncDec ks k hk fd]
          | null => rfl
          | bool b => rfl
          | int n => rfl
          | str s => rfl
          | obj fields2 => rfl
  | null => rfl
  | bool b => rfl
  | int n => rfl
  | str s => rfl
  | arr xs => rfl

theorem entryKeyUnderParams_of_falsy (k : String) (t0 : PyVal)
    (h : pyTruthy ((pyGet t0 "functionDeclarations").getD .null) = false) :
    entryKeyUnderParams k t0 = false := by
  unfold entryKeyUnderParams
  cases hg : pyGet t0 "functionDeclarations" with
  | none => rfl
  | some v =>
      rw [hg] at h
      cases v with
      | arr fds =>
          have hfds : fds = [] := by
            cases fds with
            | nil => rfl
            | cons a as => simp [pyTruthy] at h
          subst hfds
          rfl
      | null => rfl
      | bool b => rfl
      | int n => rfl
      | str s => rfl
      | obj fields => rfl

/-- C4 amended: the sanitiser strips the configured keys only from the
first tools entry (and returns the remaining entries untouched), so no
configured key survives under `tools[0].functionDeclarations[*].parameters`
— but entries past the first are emitted as received.  For the OpenAI and
Claude adapters the tools list is always the singleton built by the
adapter, so for those surfaces no configured key survives anywhere. -/
theorem sanitize_strips_only_first_entry (ks : List String) (k : String)
    (t0 : PyVal) (rest : List PyVal) (hk : k ∈ ks) :
    sanitize_gemini_tools ks (some (t0 :: rest)) =
      some ((if pyTruthy ((pyGet t0 "functionDeclarations").getD .null) then
               sanitizeFirstEntry ks t0
             else t0) :: rest) ∧
    entryKeyUnderParams k
      (if pyTruthy ((pyGet t0 "functionDeclarations").getD .null) then
         sanitizeFirstEntry ks t0
       else t0) = false := by
  constructor
  · simp only [sanitize_gemini_tools]
    split <;> rfl
  · split
    · exact entryKeyUnderParams_sanitizeFirstEntry ks k hk t0
    · rename_i h
      exact entryKeyUnderParams_of_falsy k t0 (Bool.not_eq_true _ ▸ h)

/-- Witness for the amended C4: applying it to the first counterexample
entry with the default key list. -/
theorem sanitize_strips_only_first_entry_witness :
    entryKeyUnderParams "$schema"
      (if pyTruthy ((pyGet c4Entry0 "functionDeclarations").getD .null) then
         sanitizeFirstEntry defaultUnsupportedKeys c4Entry0
       else c4Entry0) = false :=
  (sanitize_strips_only_first_entry defaultUnsupportedKeys "$schema"
    c4Entry0 [] (by decide)).2

/-- C8: the line `data: null` is framed, its payload parses as JSON, the
whole-object validation fails, and `"response" in None` then raises a
`TypeError` that neither exception handler catches, so the parser — and
with it the stream — aborts instead of skipping the line.  The same
happens for any scalar JSON payload (`data: 0`, `data: true`), while a
string payload that fails validation is skipped as the claim expects, and
a well-formed wrapped line still yields its chunk with the sibling
`usageMetadata` copied on. -/
theorem sse_parser_raises_on_scalar_payload :
    extractDataLine "data: null" = some "null" ∧
    processPayload PyVal.null = .raised .typeError ∧
    processPayload (PyVal.int 0) = .raised .typeError ∧
    processPayload (PyVal.bool true) = .raised .typeError ∧
    processPayload (PyVal.str "hello") = .skipped ∧
    processPayload (.obj [("response", .obj [("candidates", .arr [])]),
                          ("usageMetadata", .obj [("promptTokenCount", .int 7)])]) =
      .yielded { candidates := [],
                 usageMetadata := some { promptTokenCount := some 7 } } := by
  refine ⟨by decide, rfl, rfl, rfl, rfl, rfl⟩

/-- C2 counterexample: an OpenAI stream whose first upstream item is an
error yields the inline error frame and then still emits the
`data: [DONE]` terminator, because the final `[DONE]` yield is outside the
`had_error` guard. -/
theorem c2_counterexample :
    processStream (.openai "chatcmpl-x" "m" false) [.streamError 500 "boom"] =
      [.errorData "boom", .done] := rfl

theorem processLoop_error (st : Nat) (msg : String) (rest : List StreamItem) :
    ∀ (pre : List StreamItem) (f : FormatterState), pre.all isChunkItem = true →
      processLoop f (pre ++ .streamError st msg :: rest) =
        (true, (formatChunksOnly f pre).1,
         (formatChunksOnly f pre).2 ++ [.errorData msg]) := by
  intro pre
  induction pre with
  | nil => intro f _; rfl
  | cons x pre2 ih =>
      intro f hall
      cases x with
      | streamError st2 msg2 => simp [isChunkItem] at hall
      | chunk c =>
          rw [List.all_cons] at hall
          have hall2 : pre2.all isChunkItem = true := by
            simpa [isChunkItem] using hall
          show processLoop f (.chunk c :: (pre2 ++ .streamError st msg :: rest)) = _
          simp only [processLoop, formatChunksOnly,
            ih (formatterFormatChunk f (some c)).1 hall2, List.append_assoc]

/-- C2 amended: when an upstream error follows an error-free prefix of
chunks, the processor emits the formatted prefix, exactly one inline
error frame, and stops reading — but while the Claude and native Gemini
streams then close with nothing after the error frame, the OpenAI stream
still emits the `data: [DONE]` terminator after it (the `[DONE]` yield is
unconditional for the OpenAI formatter). -/
theorem stream_error_frame_then_close (f : FormatterState) (pre : List StreamItem)
    (st : Nat) (msg : String) (rest : List StreamItem)
    (hpre : pre.all isChunkItem = true) :
    processStream f (pre ++ .streamError st msg :: rest) =
      (formatChunksOnly f pre).2 ++ [.errorData msg] ++
      (if isOpenAIFormatter f then [.done] else []) := by
  unfold processStream
  rw [processLoop_error st msg rest pre f hpre]
  simp

/-- Witness for the amended C2: a Claude stream with an immediate
upstream error emits only the inline error frame. -/
theorem stream_error_frame_then_close_witness :
    processStream (.claude (ClaudeStreamer.init "msg_w3" "m"))
        ([] ++ .streamError 503 "overloaded" :: []) =
      (formatChunksOnly (.claude (ClaudeStreamer.init "msg_w3" "m")) []).2 ++
      [.errorData "overloaded"] ++
      (if isOpenAIFormatter (.claude (ClaudeStreamer.init "msg_w3" "m")) then
        [.done] else []) :=
  stream_error_frame_then_close (.claude (ClaudeStreamer.init "msg_w3" "m")) []
    503 "overloaded" [] rfl

theorem getNextLoop_returns_unexpired (oracle : Nat → RefreshOutcome) :
    ∀ (fuel : Nat) (creds : List ManagedCredential) (idx i : Nat)
      (mc : ManagedCredential),
      (getNextLoop oracle fuel creds idx).1 = some (i, mc) →
      mc.credential.expired = false := by
  intro fuel
  induction fuel with
  | zero => intro creds idx i mc h; cases h
  | succ fuel ih =>
      intro creds idx i mc h
      rw [getNextLoop] at h
      by_cases hv : (creds.getD idx default).is_valid
      · simp only [hv, Bool.not_true, Bool.false_eq_true, if_false] at h
        by_cases he : (creds.getD idx default).credential.expired
        · simp only [he, Bool.not_true, Bool.false_eq_true, if_false] at h
          by_cases hr : strTruthy (creds.getD idx default).credential.refresh_token
          · simp only [hr, if_true] at h
            cases horacle : oracle idx with
            | success tok =>
                rw [horacle] at h
                simp only [Option.some_inj, Prod.mk.injEq] at h
                obtain ⟨-, rfl⟩ := h
                rfl
            | invalidGrant =>
                rw [horacle] at h
                exact ih _ _ i mc h
            | transientFailure =>
                rw [horacle] at h
                exact ih _ _ i mc h
          · simp only [hr, if_false] at h
            exact ih _ _ i mc h
        · simp only [Bool.not_eq_true] at he
          simp only [he, Bool.not_false, if_true] at h
          simp only [Option.some_inj, Prod.mk.injEq] at h
          obtain ⟨-, rfl⟩ := h
          exact he
      · simp only [Bool.not_eq_true] at hv
        simp only [hv, Bool.not_false, if_true] at h
        exact ih _ _ i mc h

/-- C5: a credential handed out by `next()` was observed unexpired or had
just been refreshed successfully — either way its access-token state is
not expired at the moment of return. -/
theorem rotator_returns_unexpired (m : CredentialManager)
    (oracle : Nat → RefreshOutcome) (i : Nat) (mc : ManagedCredential)
    (m2 : CredentialManager)
    (h : get_next_credential m oracle = (some (i, mc), m2)) :
    mc.credential.expired = false := by
  unfold get_next_credential at h
  by_cases hemp : m.credentials.isEmpty
  · simp [hemp] at h
  · simp only [hemp, Bool.false_eq_true, if_false] at h
    exact getNextLoop_returns_unexpired oracle m.credentials.length m.credentials
      m.next_credential_index i mc (congrArg Prod.fst h)

theorem getNextLoop_invalid_never (oracle : Nat → RefreshOutcome) :
    ∀ (fuel : Nat) (creds : List ManagedCredential) (idx i : Nat),
      (creds.getD i default).is_valid = false →
      (((getNextLoop oracle fuel creds idx).2.1.getD i default).is_valid = false ∧
       ∀ mc, (getNextLoop oracle fuel creds idx).1 ≠ some (i, mc)) := by
  intro fuel
  induction fuel with
  | zero =>
      intro creds idx i h
      exact ⟨h, fun mc hc => by cases hc⟩
  | succ fuel ih =>
      intro creds idx i h
      rw [getNextLoop]
      by_cases hv : (creds.getD idx default).is_valid
      · have hne : i ≠ idx := by
          intro he
          rw [he] at h
          rw [h] at hv
          cases hv
        simp only [hv, Bool.not_true, Bool.false_eq_true, if_false]
        by_cases he : (creds.getD idx default).credential.expired
        · simp only [he, Bool.not_true, Bool.false_eq_true, if_false]
          by_cases hr : strTruthy (creds.getD idx default).credential.refresh_token
          · simp only [hr, if_true]
            cases horacle : oracle idx with
            | success tok =>
                refine ⟨?_, ?_⟩
                · rw [List.getD_eq_getElem?_getD, List.getElem?_set_ne (fun hh => hne hh.symm),
                    ← List.getD_eq_getElem?_getD]
                  exact h
                · intro mc hc
                  simp only [Option.some_inj, Prod.mk.injEq] at hc
                  exact hne hc.1.symm
            | invalidGrant =>
                apply ih
                rw [List.getD_eq_getElem?_getD, List.getElem?_set_ne (fun hh => hne hh.symm),
                  ← List.getD_eq_getElem?_getD]
                exact h
            | transientFailure => exact ih _ _ i h
          · simp only [hr, if_false]
            exact ih _ _ i h
        · simp only [Bool.not_eq_true] at he
          simp only [he, Bool.not_false, if_true]
          refine ⟨h, ?_⟩
          intro mc hc
          simp only [Option.some_inj, Prod.mk.injEq] at hc
          exact hne hc.1.symm
      · simp only [Bool.not_eq_true] at hv
        simp only [hv, Bool.not_false, if_true]
        exact ih _ _ i h

theorem getNextLoop_flip_only_invalidGrant (oracle : Nat → RefreshOutcome) :
    ∀ (fuel : Nat) (creds : List ManagedCredential) (idx i : Nat),
      (creds.getD i default).is_valid = true →
      (((getNextLoop oracle fuel creds idx).2.1.getD i default).is_valid = false) →
      oracle i = .invalidGrant := by
  intro fuel
  induction fuel with
  | zero =>
      intro creds idx i h1 h2
      rw [getNextLoop] at h2
      rw [h1] at h2
      cases h2
  | succ fuel ih =>
      intro creds idx i h1 h2
      rw [getNextLoop] at h2
      by_cases hv : (creds.getD idx default).is_valid
      · simp only [hv, Bool.not_true, Bool.false_eq_true, if_false] at h2
        by_cases he : (creds.getD idx default).credential.expired
        · simp only [he, Bool.not_true, Bool.false_eq_true, if_false] at h2
          by_cases hr : strTruthy (creds.getD idx default).credential.refresh_token
          · simp only [hr, if_true] at h2
            cases horacle : oracle idx with
            | success tok =>
                rw [horacle] at h2
                simp only at h2
                by_cases hii : i = idx
                · subst hii
                  by_cases hlt : i < creds.length
                  · rw [List.getD_eq_getElem?_getD, List.getElem?_set_self hlt] at h2
                    simp only [Option.getD_some] at h2
                    cases h2
                  · rw [List.set_eq_of_length_le (Nat.le_of_not_lt hlt)] at h2
                    rw [h1] at h2
                    cases h2
                · rw [List.getD_eq_getElem?_getD,
                    List.getElem?_set_ne (fun hh => hii hh.symm),
                    ← List.getD_eq_getElem?_getD, h1] at h2
                  cases h2
            | invalidGrant =>
                rw [horacle] at h2
                by_cases hii : i = idx
                · rw [hii]
                  exact horacle
                · apply ih _ _ i _ h2
                  rw [List.getD_eq_getElem?_getD,
                    List.getElem?_set_ne (fun hh => hii hh.symm),
                    ← List.getD_eq_getElem?_getD]
                  exact h1
            | transientFailure =>
                rw [horacle] at h2
                exact ih _ _ i h1 h2
          · simp only [hr, if_false] at h2
            exact ih _ _ i h1 h2
        · simp only [Bool.not_eq_true] at he
          simp only [he, Bool.not_false, if_true] at h2
          rw [h1] at h2
          cases h2
      · simp only [Bool.not_eq_true] at hv
        simp only [hv, Bool.not_false, if_true] at h2
        exact ih _ _ i h1 h2

/-- C6: (1) a credential marked invalid stays invalid across a `next()`
call and is never the returned one; (2) a call flips a credential's
validity flag from true to false only when its refresh outcome is the
permanent invalid-grant failure (a transient failure never sets the
flag); (3) hence once invalid, a credential is returned by no later
`next()` call in the process. -/
theorem rotator_invalidation_sticky :
    (∀ (m : CredentialManager) (oracle : Nat → RefreshOutcome) (i : Nat),
       (m.credentials.getD i default).is_valid = false →
       (((get_next_credential m oracle).2.credentials.getD i default).is_valid = false ∧
        ∀ mc, (get_next_credential m oracle).1 ≠ some (i, mc))) ∧
    (∀ (m : CredentialManager) (oracle : Nat → RefreshOutcome) (i : Nat),
       (m.credentials.getD i default).is_valid = true →
       ((get_next_credential m oracle).2.credentials.getD i default).is_valid = false →
       oracle i = .invalidGrant) ∧
    (∀ (m : CredentialManager) (oracles : List (Nat → RefreshOutcome)) (i : Nat),
       (m.credentials.getD i default).is_valid = false →
       ∀ r ∈ (runCalls m oracles).1, ∀ mc, r ≠ some (i, mc)) := by
  have hsingle :
      ∀ (m : CredentialManager) (oracle : Nat → RefreshOutcome) (i : Nat),
        (m.credentials.getD i default).is_valid = false →
        (((get_next_credential m oracle).2.credentials.getD i default).is_valid = false ∧
         ∀ mc, (get_next_credential m oracle).1 ≠ some (i, mc)) := by
    intro m oracle i h
    unfold get_next_credential
    by_cases hemp : m.credentials.isEmpty
    · simp only [hemp, if_true]
      exact ⟨h, fun mc hc => by cases hc⟩
    · simp only [hemp, Bool.false_eq_true, if_false]
      exact getNextLoop_invalid_never oracle m.credentials.length m.credentials
        m.next_credential_index i h
  refine ⟨hsingle, ?_, ?_⟩
  · intro m oracle i h1 h2
    unfold get_next_credential at h2
    by_cases hemp : m.credentials.isEmpty
    · simp only [hemp, if_true] at h2
      rw [h1] at h2
      cases h2
    · simp only [hemp, Bool.false_eq_true, if_false] at h2
      exact getNextLoop_flip_only_invalidGrant oracle m.credentials.length
        m.credentials m.next_credential_index i h1 h2
  · intro m oracles
    induction oracles generalizing m with
    | nil => intro i _ r hr; cases hr
    | cons o os ih =>
        intro i h r hr
        obtain ⟨hstable, hnever⟩ := hsingle m o i h
        simp only [runCalls, List.mem_cons] at hr
        rcases hr with rfl | hr
        · exact hnever
        · exact ih (get_next_credential m o).2 i hstable r hr

theorem get_next_all_usable (m : CredentialManager) (oracle : Nat → RefreshOutcome)
    (hidx : m.next_credential_index < m.credentials.length)
    (hus : ∀ mc ∈ m.credentials, usableCred mc = true)
    (hor : ∀ i, (oracle i).isSuccess = true) :
    (get_next_credential m oracle).1.map Prod.fst = some m.next_credential_index ∧
    (get_next_credential m oracle).2.credentials.length = m.credentials.length ∧
    (get_next_credential m oracle).2.next_credential_index =
      (m.next_credential_index + 1) % m.credentials.length ∧
    (∀ mc ∈ (get_next_credential m oracle).2.credentials, usableCred mc = true) := by
  have hN : 0 < m.credentials.length := Nat.lt_of_le_of_lt (Nat.zero_le _) hidx
  have hemp : m.credentials.isEmpty = false := by
    cases hc : m.credentials with
    | nil => rw [hc] at hN; cases hN
    | cons a l => rfl
  have hmem : m.credentials.getD m.next_credential_index default ∈ m.credentials := by
    rw [List.getD_eq_getElem _ _ hidx]
    exact List.getElem_mem hidx
  have husable := hus _ hmem
  rw [usableCred, Bool.and_eq_true] at husable
  obtain ⟨hval, hrest⟩ := husable
  obtain ⟨k, hk⟩ : ∃ k, m.credentials.length = k + 1 :=
    ⟨m.credentials.length - 1, (Nat.succ_pred_eq_of_pos hN).symm⟩
  unfold get_next_credential
  rw [hemp]
  simp only [Bool.false_eq_true, if_false]
  rw [hk, getNextLoop, ← hk]
  rw [hval]
  simp only [Bool.not_true, Bool.false_eq_true, if_false]
  by_cases he : (m.credentials.getD m.next_credential_index default).credential.expired
  · have hr : strTruthy
        (m.credentials.getD m.next_credential_index default).credential.refresh_token = true := by
      rw [he] at hrest
      simpa using hrest
    rw [he, hr]
    simp only [Bool.not_true, Bool.false_eq_true, if_false, if_true]
    cases horacle : oracle m.next_credential_index with
    | invalidGrant =>
        have hbad := hor m.next_credential_index
        rw [horacle] at hbad
        cases hbad
    | transientFailure =>
        have hbad := hor m.next_credential_index
        rw [horacle] at hbad
        cases hbad
    | success tok =>
        refine ⟨by simp, by simp, by simp, ?_⟩
        intro mc hmc
        rcases List.mem_or_eq_of_mem_set hmc with hin | rfl
        · exact hus mc hin
        · simp [usableCred, applyRefresh, hval]
  · simp only [Bool.not_eq_true] at he
    rw [he]
    simp only [Bool.not_false, if_true]
    exact ⟨by simp, by simp, by simp, hus⟩

theorem add_mod_inj (a N j k : Nat) (hj : j < N) (hk : k < N)
    (h : (a + j) % N = (a + k) % N) : j = k := by
  have hmod : j % N = k % N := Nat.ModEq.add_left_cancel' a h
  rwa [Nat.mod_eq_of_lt hj, Nat.mod_eq_of_lt hk] at hmod

theorem runCalls_round_robin :
    ∀ (os : List (Nat → RefreshOutcome)) (m : CredentialManager),
      m.next_credential_index < m.credentials.length →
      (∀ mc ∈ m.credentials, usableCred mc = true) →
      (∀ o ∈ os, ∀ i, (o i).isSuccess = true) →
      (runCalls m os).1.map (Option.map Prod.fst) =
        (List.range os.length).map
          (fun k => some ((m.next_credential_index + k) % m.credentials.length)) := by
  intro os
  induction os with
  | nil => intro m _ _ _; rfl
  | cons o os ih =>
      intro m hidx hus hor
      have hN : 0 < m.credentials.length := Nat.lt_of_le_of_lt (Nat.zero_le _) hidx
      obtain ⟨h1, h2, h3, h4⟩ :=
        get_next_all_usable m o hidx hus (hor o (List.mem_cons_self o os))
      have hidx2 : (get_next_credential m o).2.next_credential_index <
          (get_next_credential m o).2.credentials.length := by
        rw [h3, h2]
        exact Nat.mod_lt _ hN
      have htail := ih (get_next_credential m o).2 hidx2 h4
        (fun o2 ho2 => hor o2 (List.mem_cons_of_mem o ho2))
      have hhead : Option.map Prod.fst (get_next_credential m o).1 =
          some ((m.next_credential_index + 0) % m.credentials.length) := by
        rw [h1, Nat.add_zero, Nat.mod_eq_of_lt hidx]
      simp only [runCalls, List.map_cons, List.length_cons, List.range_succ_eq_map,
        List.map_map]
      rw [hhead, htail, h3, h2]
      congr 1
      apply List.map_congr_left
      intro k _
      simp only [Function.comp_apply, Option.some_inj]
      rw [Nat.mod_add_mod]
      congr 1
      omega

/-- C7: over a pool whose credentials are all valid and usable (unexpired
or refreshable) and refresh outcomes that all succeed, every call returns
the entry at the cursor and advances the cursor by exactly one modulo the
pool size — so any pool-size-many consecutive `next()` calls return
pairwise distinct pool entries. -/
theorem rotator_round_robin_distinct (m : CredentialManager)
    (os : List (Nat → RefreshOutcome))
    (hidx : m.next_credential_index < m.credentials.length)
    (hlen : os.length = m.credentials.length)
    (hus : ∀ mc ∈ m.credentials, usableCred mc = true)
    (hor : ∀ o ∈ os, ∀ i, (o i).isSuccess = true) :
    (runCalls m os).1.map (Option.map Prod.fst) =
      (List.range os.length).map
        (fun k => some ((m.next_credential_index + k) % m.credentials.length)) ∧
    ((runCalls m os).1.map (Option.map Prod.fst)).Nodup := by
  have hmain := runCalls_round_robin os m hidx hus hor
  refine ⟨hmain, ?_⟩
  rw [hmain]
  apply List.Nodup.map_on
  · intro j hj k hk hjk
    simp only [Option.some_inj] at hjk
    rw [List.mem_range, hlen] at hj hk
    exact add_mod_inj m.next_credential_index m.credentials.length j k hj hk hjk
  · exact List.nodup_range _

/-- Witness for C5: a one-credential pool returns its unexpired entry. -/
theorem rotator_returns_unexpired_witness :
    wCredReady.credential.expired = false :=
  rotator_returns_unexpired
    { credentials := [wCredReady], next_credential_index := 0 }
    (fun _ => .transientFailure) 0 wCredReady
    { credentials := [wCredReady], next_credential_index := 0 }
    rfl

/-- Witness for C6: applying each part to one-credential pools. -/
theorem rotator_invalidation_sticky_witness :
    (((get_next_credential c6PoolInvalid invalidGrantOracle).2.credentials.getD 0
        default).is_valid = false ∧
      ∀ mc, (get_next_credential c6PoolInvalid invalidGrantOracle).1 ≠ some (0, mc)) ∧
    invalidGrantOracle 0 = .invalidGrant ∧
    (∀ r, r ∈ (runCalls c6PoolInvalid [invalidGrantOracle, invalidGrantOracle]).1 →
      ∀ mc, r ≠ some (0, mc)) :=
  ⟨rotator_invalidation_sticky.1 c6PoolInvalid invalidGrantOracle 0 (by decide),
   rotator_invalidation_sticky.2.1 c6PoolExpired invalidGrantOracle 0
     (by decide) (by decide),
   fun r hr => rotator_invalidation_sticky.2.2 c6PoolInvalid
     [invalidGrantOracle, invalidGrantOracle] 0 (by decide) r hr⟩

/-- Witness for C7: a two-credential pool (one entry needing a successful
refresh) served twice returns the two distinct entries in cursor order. -/
theorem rotator_round_robin_distinct_witness :
    (runCalls { credentials := [wCredReady, wCredExpired], next_credential_index := 0 }
        [fun _ => .success "t1", fun _ => .success "t2"]).1.map (Option.map Prod.fst) =
      (List.range 2).map (fun k => some ((0 + k) % 2)) ∧
    ((runCalls { credentials := [wCredReady, wCredExpired], next_credential_index := 0 }
        [fun _ => .success "t1", fun _ => .success "t2"]).1.map (Option.map Prod.fst)).Nodup :=
  rotator_round_robin_distinct
    { credentials := [wCredReady, wCredExpired], next_credential_index := 0 }
    [fun _ => .success "t1", fun _ => .success "t2"]
    (by decide) (by decide) (by decide)
    (by
      intro o ho i
      simp only [List.mem_cons, List.not_mem_nil, or_false] at ho
      rcases ho with rfl | rfl <;> rfl)

end GcliApi
